import Mathlib

/-!
Verification of the MPLS header codec in src/link/mpls.rs.

Bytes are modelled as natural numbers (with explicit bounds b < 256 where
the claims need them), byte buffers as lists of naturals, and the fallible
Rust paths as Except values. Bit operations of the source are translated
with the corresponding Nat bitwise operators; the u8 left shift of the
source wraps, so it carries an explicit % 256.
-/

/-- Fields that can be reported by a range-check failure of the encoder. -/
inductive ErrorField where
  | MplsLabel
  | MplsTc
deriving DecidableEq, Repr

/-- Modelled from the spec: the encode path fails with a ValueOutOfRange
condition identifying which field and which offending value; the checking
helpers live in the enclosing crate, outside this file of the source. -/
inductive ValueError where
  | ValueOutOfRange (field : ErrorField) (value : Nat)
deriving DecidableEq, Repr

/-- Modelled from the spec: decode paths fail with a TruncatedInput
condition reporting the required length; in the source this is the
crate-level ReadError, whose UnexpectedEndOfSlice variant carries the
required length. -/
inductive ReadError where
  | UnexpectedEndOfSlice (required : Nat)
deriving DecidableEq, Repr

/-- Modelled from the spec: the stream reader has read-exact-N-bytes-or-fail
semantics; a short stream yields an IO-style error that is propagated. -/
inductive IoError where
  | UnexpectedEof
deriving DecidableEq, Repr

/-- Modelled from the spec: max_check_u8 of the enclosing crate validates
value less-or-equal max and otherwise reports the field and the value. -/
def max_check_u8 (value m : Nat) (field : ErrorField) : Except ValueError Unit :=
  if value > m then Except.error (ValueError.ValueOutOfRange field value)
  else Except.ok ()

/-- Modelled from the spec: max_check_u32 of the enclosing crate validates
value less-or-equal max and otherwise reports the field and the value. -/
def max_check_u32 (value m : Nat) (field : ErrorField) : Except ValueError Unit :=
  if value > m then Except.error (ValueError.ValueOutOfRange field value)
  else Except.ok ()

/-- u32::from_be_bytes: assembles a 32-bit word from four big-endian bytes. -/
def u32_from_be_bytes (a b c d : Nat) : Nat :=
  a * 16777216 + b * 65536 + c * 256 + d

/-- The MPLS header struct of the source: label, tc, s, ttl. -/
structure MplsHeader where
  label : Nat
  tc : Nat
  s : Bool
  ttl : Nat
deriving DecidableEq, Repr

/-- SerializedSize for MplsHeader: 4 bytes. -/
def MplsHeader.SERIALIZED_SIZE : Nat := 4

/-- MplsHeader::from_bytes of the source: label from bytes 0 and 1 and the
high nibble of byte 2 assembled as big-endian word with a zero low byte,
tc from the high nibble of byte 2 masked to 3 bits, s from bits 4 and 0 of
byte 2, ttl from byte 3. -/
def MplsHeader.from_bytes (b0 b1 b2 b3 : Nat) : MplsHeader :=
  { label := u32_from_be_bytes b0 b1 ((b2 >>> 4) &&& 0xf) 0
    tc := (b2 >>> 4) &&& 0b111
    s := (b2 &&& 0b10001) != 0
    ttl := b3 }

namespace MplsHeaderSlice

/-- MplsHeaderSlice::from_slice: errors when fewer than 4 bytes are
available, otherwise binds exactly the first 4 bytes of the buffer. -/
def from_slice (s : List Nat) : Except ReadError (List Nat) :=
  if s.length < MplsHeader.SERIALIZED_SIZE then
    Except.error (ReadError.UnexpectedEndOfSlice MplsHeader.SERIALIZED_SIZE)
  else
    Except.ok (s.take MplsHeader.SERIALIZED_SIZE)

/-- MplsHeaderSlice::label: big-endian word from a zero byte, the low
nibble of byte 2, byte 1 and byte 0 of the bound window. -/
def label (v : List Nat) : Nat :=
  u32_from_be_bytes 0 ((v.getD 2 0) &&& 0xf) (v.getD 1 0) (v.getD 0 0)

/-- MplsHeaderSlice::tc: byte 2 shifted left by one (as u8, wrapping) then
right by five. -/
def tc (v : List Nat) : Nat :=
  (((v.getD 2 0) <<< 1) % 256) >>> 5

/-- MplsHeaderSlice::s: bit 7 of byte 2 of the bound window. -/
def s (v : List Nat) : Bool :=
  ((v.getD 2 0) &&& 0b10000000) != 0

/-- MplsHeaderSlice::ttl: byte 3 of the bound window. -/
def ttl (v : List Nat) : Nat :=
  v.getD 3 0

/-- MplsHeaderSlice::to_header: materializes the four accessor values. -/
def to_header (v : List Nat) : MplsHeader :=
  { label := label v, tc := tc v, s := s v, ttl := ttl v }

end MplsHeaderSlice

/-- MplsHeader::from_slice: the slice constructor followed by to_header,
returning the part of the buffer after the first 4 bytes as remainder. -/
def MplsHeader.from_slice (s : List Nat) :
    Except ReadError (MplsHeader × List Nat) :=
  match MplsHeaderSlice.from_slice s with
  | Except.error e => Except.error e
  | Except.ok v => Except.ok (MplsHeaderSlice.to_header v, s.drop MplsHeader.SERIALIZED_SIZE)

/-- MplsHeader::read: reads exactly 4 bytes from the stream (propagating
the IO-style error when short) and decodes them through the slice path. -/
def MplsHeader.read (stream : List Nat) : Except IoError MplsHeader :=
  if stream.length < MplsHeader.SERIALIZED_SIZE then
    Except.error IoError.UnexpectedEof
  else
    Except.ok (MplsHeaderSlice.to_header (stream.take MplsHeader.SERIALIZED_SIZE))

/-- MplsHeader::to_bytes: checks tc against 0x7 and label against 0xfffff
(in that order), then serializes: byte 0 and byte 1 are the two low bytes
of label, byte 2 combines the third label byte, the s flag in bit 7 and tc
shifted into bits 6..4, byte 3 is ttl. -/
def MplsHeader.to_bytes (h : MplsHeader) : Except ValueError (List Nat) :=
  match max_check_u8 h.tc 0x7 ErrorField.MplsTc with
  | Except.error e => Except.error e
  | Except.ok _ =>
    match max_check_u32 h.label 0xfffff ErrorField.MplsLabel with
    | Except.error e => Except.error e
    | Except.ok _ =>
      Except.ok
        [ h.label % 256,
          (h.label / 256) % 256,
          (if h.s then ((h.label / 65536) % 256) ||| 0b10000000
           else (h.label / 65536) % 256) ||| ((h.tc <<< 4) % 256),
          h.ttl ]

set_option maxRecDepth 4096

/-- Masking a byte with 0xf is reduction mod 16. -/
theorem byte_land15 : ∀ b : Nat, b < 256 → b &&& 15 = b % 16 := by decide

/-- The tc accessor value of a byte is at most 7. -/
theorem byte_tc_le7 : ∀ b : Nat, b < 256 → ((b <<< 1) % 256) >>> 5 ≤ 7 := by decide

/-- Reassembling byte 2 from the slice accessor values gives back the byte:
the low nibble, bit 7 and the tc bits recombine to the original value. -/
theorem byte2_reassemble : ∀ b : Nat, b < 256 →
    ((if ((b &&& 128) != 0) = true then (b % 16) ||| 128 else b % 16) |||
      (((((b <<< 1) % 256) >>> 5) <<< 4) % 256)) = b := by decide

/-- The label accessor on a 4-byte window, written arithmetically. -/
theorem slice_label_eq (a b c d : Nat) (hc : c < 256) :
    MplsHeaderSlice.label [a, b, c, d] = (c % 16) * 65536 + b * 256 + a := by
  simp [MplsHeaderSlice.label, u32_from_be_bytes, byte_land15 c hc]

/-- Core of the slice-path/encoder inverse property on four bounded bytes. -/
theorem slice_encode_core (a b c d : Nat)
    (ha : a < 256) (hb : b < 256) (hc : c < 256) (_hd : d < 256) :
    (MplsHeaderSlice.to_header [a, b, c, d]).label ≤ 0xfffff ∧
    (MplsHeaderSlice.to_header [a, b, c, d]).tc ≤ 0x7 ∧
    (MplsHeaderSlice.to_header [a, b, c, d]).to_bytes = Except.ok [a, b, c, d] := by
  have hl : MplsHeaderSlice.label [a, b, c, d] = (c % 16) * 65536 + b * 256 + a :=
    slice_label_eq a b c d hc
  have htc : MplsHeaderSlice.tc [a, b, c, d] = ((c <<< 1) % 256) >>> 5 := by
    simp [MplsHeaderSlice.tc]
  have htc7 : MplsHeaderSlice.tc [a, b, c, d] ≤ 7 := by
    rw [htc]; exact byte_tc_le7 c hc
  have hlab : MplsHeaderSlice.label [a, b, c, d] ≤ 0xfffff := by
    rw [hl]; omega
  refine ⟨hlab, htc7, ?_⟩
  simp only [MplsHeaderSlice.to_header, MplsHeader.to_bytes, max_check_u8, max_check_u32]
  rw [if_neg (by omega), if_neg (by omega)]
  simp only [Except.ok.injEq, List.cons.injEq, and_true]
  refine ⟨by rw [hl]; omega, by rw [hl]; omega, ?_, ?_⟩
  · have h1 : MplsHeaderSlice.label [a, b, c, d] / 65536 % 256 = c % 16 := by
      rw [hl]; omega
    rw [h1, htc]
    have hs : MplsHeaderSlice.s [a, b, c, d] = ((c &&& 128) != 0) := by
      simp [MplsHeaderSlice.s]
    rw [hs]
    exact byte2_reassemble c hc
  · simp [MplsHeaderSlice.ttl]

/-- A buffer of length at least 4 starts with four explicit bytes. -/
theorem buf4_decomp (s : List Nat) (h : 4 ≤ s.length) :
    ∃ a b c d t, s = a :: b :: c :: d :: t := by
  match s with
  | a :: b :: c :: d :: t => exact ⟨a, b, c, d, t, rfl⟩
  | [] => simp at h
  | [a] => simp at h
  | [a, b] => simp at h
  | [a, b, c] => simp at h

/-- Claim C10: for every buffer of at least 4 bytes, the header materialized
through the view path satisfies the encode invariants, encoding it succeeds,
and the produced bytes are exactly the first 4 bytes of the buffer. -/
theorem mpls_c10_view_encode_inverse (s : List Nat) (hlen : 4 ≤ s.length)
    (hb : ∀ b ∈ s.take 4, b < 256) :
    (MplsHeaderSlice.to_header (s.take 4)).label ≤ 0xfffff ∧
    (MplsHeaderSlice.to_header (s.take 4)).tc ≤ 0x7 ∧
    (MplsHeaderSlice.to_header (s.take 4)).to_bytes = Except.ok (s.take 4) := by
  obtain ⟨a, b, c, d, t, rfl⟩ := buf4_decomp s hlen
  have htake : (a :: b :: c :: d :: t).take 4 = [a, b, c, d] := rfl
  rw [htake] at hb ⊢
  exact slice_encode_core a b c d (hb a (by simp)) (hb b (by simp))
    (hb c (by simp)) (hb d (by simp))

theorem mpls_c10_witness :
    (MplsHeaderSlice.to_header (([0x12, 0x34, 0xAB, 0xCD, 0x77] : List Nat).take 4)).label ≤ 0xfffff ∧
    (MplsHeaderSlice.to_header (([0x12, 0x34, 0xAB, 0xCD, 0x77] : List Nat).take 4)).tc ≤ 0x7 ∧
    (MplsHeaderSlice.to_header (([0x12, 0x34, 0xAB, 0xCD, 0x77] : List Nat).take 4)).to_bytes =
      Except.ok (([0x12, 0x34, 0xAB, 0xCD, 0x77] : List Nat).take 4) :=
  mpls_c10_view_encode_inverse [0x12, 0x34, 0xAB, 0xCD, 0x77] (by simp) (by decide)

/-- Claim C7: buffers of length 0 to 3 make both slice paths fail with the
truncation error carrying the required length 4; on length at least 4 the
value path decodes the first 4 bytes and returns the rest as remainder, and
the view path binds exactly the first 4 bytes. -/
theorem mpls_c7_truncation (s : List Nat) :
    (s.length < 4 →
      MplsHeader.from_slice s = Except.error (ReadError.UnexpectedEndOfSlice 4) ∧
      MplsHeaderSlice.from_slice s = Except.error (ReadError.UnexpectedEndOfSlice 4)) ∧
    (4 ≤ s.length →
      MplsHeader.from_slice s =
        Except.ok (MplsHeaderSlice.to_header (s.take 4), s.drop 4) ∧
      MplsHeaderSlice.from_slice s = Except.ok (s.take 4) ∧
      (s.take 4).length = 4) := by
  constructor
  · intro h
    simp [MplsHeader.from_slice, MplsHeaderSlice.from_slice, MplsHeader.SERIALIZED_SIZE, h]
  · intro h
    have h2 : ¬ s.length < 4 := by omega
    simp [MplsHeader.from_slice, MplsHeaderSlice.from_slice, MplsHeader.SERIALIZED_SIZE, h2]
    omega

theorem mpls_c7_truncation_witness :
    (MplsHeader.from_slice [7, 7] = Except.error (ReadError.UnexpectedEndOfSlice 4) ∧
     MplsHeaderSlice.from_slice [7, 7] = Except.error (ReadError.UnexpectedEndOfSlice 4)) ∧
    (MplsHeader.from_slice [1, 2, 3, 4, 5] =
       Except.ok (MplsHeaderSlice.to_header [1, 2, 3, 4], [5]) ∧
     MplsHeaderSlice.from_slice [1, 2, 3, 4, 5] = Except.ok [1, 2, 3, 4] ∧
     (([1, 2, 3, 4, 5] : List Nat).take 4).length = 4) :=
  ⟨(mpls_c7_truncation [7, 7]).1 (by decide),
   (mpls_c7_truncation [1, 2, 3, 4, 5]).2 (by decide)⟩

/-- Claim C9: the decoded header and every view accessor depend only on the
first 4 bytes of the buffer: two buffers of length at least 4 agreeing on
their first 4 bytes decode to equal headers and equal accessor values. -/
theorem mpls_c9_first_four_only (s1 s2 : List Nat)
    (h1 : 4 ≤ s1.length) (h2 : 4 ≤ s2.length) (he : s1.take 4 = s2.take 4) :
    (MplsHeader.from_slice s1).map Prod.fst = (MplsHeader.from_slice s2).map Prod.fst ∧
    MplsHeaderSlice.label (s1.take 4) = MplsHeaderSlice.label (s2.take 4) ∧
    MplsHeaderSlice.tc (s1.take 4) = MplsHeaderSlice.tc (s2.take 4) ∧
    MplsHeaderSlice.s (s1.take 4) = MplsHeaderSlice.s (s2.take 4) ∧
    MplsHeaderSlice.ttl (s1.take 4) = MplsHeaderSlice.ttl (s2.take 4) := by
  have hn1 : ¬ s1.length < 4 := by omega
  have hn2 : ¬ s2.length < 4 := by omega
  refine ⟨?_, by rw [he], by rw [he], by rw [he], by rw [he]⟩
  simp [MplsHeader.from_slice, MplsHeaderSlice.from_slice, MplsHeader.SERIALIZED_SIZE,
    hn1, hn2, he, Except.map]

theorem mpls_c9_witness :
    (MplsHeader.from_slice [1, 2, 3, 4, 9]).map Prod.fst =
      (MplsHeader.from_slice [1, 2, 3, 4]).map Prod.fst ∧
    MplsHeaderSlice.label (([1, 2, 3, 4, 9] : List Nat).take 4) =
      MplsHeaderSlice.label (([1, 2, 3, 4] : List Nat).take 4) ∧
    MplsHeaderSlice.tc (([1, 2, 3, 4, 9] : List Nat).take 4) =
      MplsHeaderSlice.tc (([1, 2, 3, 4] : List Nat).take 4) ∧
    MplsHeaderSlice.s (([1, 2, 3, 4, 9] : List Nat).take 4) =
      MplsHeaderSlice.s (([1, 2, 3, 4] : List Nat).take 4) ∧
    MplsHeaderSlice.ttl (([1, 2, 3, 4, 9] : List Nat).take 4) =
      MplsHeaderSlice.ttl (([1, 2, 3, 4] : List Nat).take 4) :=
  mpls_c9_first_four_only [1, 2, 3, 4, 9] [1, 2, 3, 4] (by decide) (by decide) (by decide)

/-- Claim C6: the encoder fails exactly when label exceeds 0xfffff or tc
exceeds 0x7 and otherwise returns a 4-byte array; a header with label
0x100000 is rejected naming the label field and its value, and a header
with tc 8 is rejected naming the tc field and its value. -/
theorem mpls_c6_encode_range_errors :
    (∀ h : MplsHeader,
      ((∃ e, h.to_bytes = Except.error e) ↔ 0xfffff < h.label ∨ 0x7 < h.tc) ∧
      ((∃ out, h.to_bytes = Except.ok out ∧ out.length = 4) ↔
        h.label ≤ 0xfffff ∧ h.tc ≤ 0x7)) ∧
    MplsHeader.to_bytes { label := 0x100000, tc := 0, s := false, ttl := 0 } =
      Except.error (ValueError.ValueOutOfRange ErrorField.MplsLabel 0x100000) ∧
    MplsHeader.to_bytes { label := 0, tc := 8, s := false, ttl := 0 } =
      Except.error (ValueError.ValueOutOfRange ErrorField.MplsTc 8) := by
  refine ⟨?_, rfl, rfl⟩
  intro h
  by_cases h1 : 0x7 < h.tc
  · constructor
    · simp [MplsHeader.to_bytes, max_check_u8, max_check_u32, h1]
    · simp only [MplsHeader.to_bytes, max_check_u8, max_check_u32, if_pos h1]
      constructor
      · rintro ⟨out, hout, -⟩; cases hout
      · rintro ⟨-, htc⟩; omega
  · by_cases h2 : 0xfffff < h.label
    · constructor
      · simp [MplsHeader.to_bytes, max_check_u8, max_check_u32, h1, h2]
      · simp only [MplsHeader.to_bytes, max_check_u8, max_check_u32, if_neg h1, if_pos h2]
        constructor
        · rintro ⟨out, hout, -⟩; cases hout
        · rintro ⟨hlab, -⟩; omega
    · constructor
      · simp [MplsHeader.to_bytes, max_check_u8, max_check_u32, h1, h2]
      · simp [MplsHeader.to_bytes, max_check_u8, max_check_u32, h1, h2]
        omega

/-- Claim C1 fails on the code: at bytes 1,0,0,0 the view label accessor
yields 1 while decode-from-array yields 16777216, and at bytes 0,0,128,0
the view s accessor yields true while decode-from-array yields false; the
tc and ttl accessors do agree with decode-from-array on sample inputs. -/
theorem mpls_c1_view_vs_from_bytes_bug :
    (MplsHeader.from_bytes 1 0 0 0).label = 16777216 ∧
    MplsHeaderSlice.label [1, 0, 0, 0] = 1 ∧
    (16777216 : Nat) ≠ 1 ∧
    (MplsHeader.from_bytes 0 0 128 0).s = false ∧
    MplsHeaderSlice.s [0, 0, 128, 0] = true ∧
    (MplsHeader.from_bytes 0 0 0x2A 0).tc = MplsHeaderSlice.tc [0, 0, 0x2A, 0] ∧
    (MplsHeader.from_bytes 9 9 9 77).ttl = MplsHeaderSlice.ttl [9, 9, 9, 77] :=
  ⟨rfl, rfl, by decide, rfl, rfl, rfl, rfl⟩

/-- Claim C2 fails on the code: decode-from-array puts bytes 0 and 1 into
label bits 24..31 and 16..23 instead of the standard positions (at bytes
1,0,0,0 it yields 16777216 where the standard layout yields 4096), reads tc
from bits 4..6 instead of 1..3 of byte 2, reads s from bits 4 and 0 instead
of bit 0, and the encoder packs label low-byte-first (header with label 1
encodes to bytes 1,0,0,0 where the standard layout gives 0,0,16,0). -/
theorem mpls_c2_layout_bug :
    (MplsHeader.from_bytes 1 0 0 0).label = 16777216 ∧
    (((1 : Nat) <<< 12) ||| ((0 : Nat) <<< 4) ||| ((0 : Nat) >>> 4)) = 4096 ∧
    (16777216 : Nat) ≠ 4096 ∧
    (MplsHeader.from_bytes 0 0 2 0).tc = 0 ∧
    (((2 : Nat) >>> 1) &&& 0b111) = 1 ∧
    (MplsHeader.from_bytes 0 0 0x10 0).s = true ∧
    ((((0x10 : Nat) &&& 1) != 0) = false) ∧
    MplsHeader.to_bytes { label := 1, tc := 0, s := false, ttl := 0 } =
      Except.ok [1, 0, 0, 0] ∧
    ([1, 0, 0, 0] : List Nat) ≠ [0, 0, 0x10, 0] :=
  ⟨rfl, rfl, by decide, rfl, rfl, rfl, rfl, rfl, by decide⟩

/-- Claim C3 fails on the code: decode-from-array applied to bytes 1,0,0,0
yields label 16777216, far above the 0xfffff encode bound, so re-encoding
the decoded header fails instead of reproducing the input bytes. -/
theorem mpls_c3_wire_roundtrip_bug :
    (MplsHeader.from_bytes 1 0 0 0).label = 16777216 ∧
    ¬ (MplsHeader.from_bytes 1 0 0 0).label ≤ 0xfffff ∧
    (MplsHeader.from_bytes 1 0 0 0).to_bytes =
      Except.error (ValueError.ValueOutOfRange ErrorField.MplsLabel 16777216) :=
  ⟨rfl, by decide, rfl⟩

/-- Claim C4 fails on the code: the in-range header with label 1 encodes to
bytes 1,0,0,0, but decode-from-array on those bytes returns label 16777216,
not the original header. -/
theorem mpls_c4_header_roundtrip_bug :
    MplsHeader.to_bytes { label := 1, tc := 0, s := false, ttl := 0 } =
      Except.ok [1, 0, 0, 0] ∧
    MplsHeader.from_bytes 1 0 0 0 =
      { label := 16777216, tc := 0, s := false, ttl := 0 } ∧
    MplsHeader.from_bytes 1 0 0 0 ≠ { label := 1, tc := 0, s := false, ttl := 0 } :=
  ⟨rfl, rfl, by decide⟩

/-- Claim C5 as stated is false on the code: decode-from-array on bytes
0x00 0x10 0x2A 0xFF yields label 0x100200, not 1. -/
theorem mpls_c5_vector_counterexample :
    (MplsHeader.from_bytes 0x00 0x10 0x2A 0xFF).label = 0x100200 ∧
    (0x100200 : Nat) ≠ 1 :=
  ⟨rfl, by decide⟩

/-- Claim C5 amended: bytes 0x00 0x10 0x2A 0xFF decode to label 0x100200,
tc 2, s false, ttl 255, and re-encoding that header fails with the
out-of-range error naming the label field, so the bytes are not
reproduced. -/
theorem mpls_c5_vector_amended :
    MplsHeader.from_bytes 0x00 0x10 0x2A 0xFF =
      { label := 0x100200, tc := 2, s := false, ttl := 255 } ∧
    (MplsHeader.from_bytes 0x00 0x10 0x2A 0xFF).to_bytes =
      Except.error (ValueError.ValueOutOfRange ErrorField.MplsLabel 0x100200) :=
  ⟨rfl, rfl⟩

/-- Claim C8 fails on the code: the stream reader decodes through the view
path, so on stream content 1,0,0,0 it returns label 1 while
decode-from-array on the same bytes returns label 16777216; a short stream
does propagate the IO-style error. -/
theorem mpls_c8_read_vs_from_bytes_bug :
    MplsHeader.read [1, 0, 0, 0] =
      Except.ok { label := 1, tc := 0, s := false, ttl := 0 } ∧
    MplsHeader.from_bytes 1 0 0 0 =
      { label := 16777216, tc := 0, s := false, ttl := 0 } ∧
    ({ label := 1, tc := 0, s := false, ttl := 0 } : MplsHeader) ≠
      { label := 16777216, tc := 0, s := false, ttl := 0 } ∧
    MplsHeader.read [1, 2] = Except.error IoError.UnexpectedEof :=
  ⟨rfl, rfl, by decide, rfl⟩
